import Mathlib

/-!
Verification of the pricing decision engine of the Analiqo repository.

The definitions below are a shallow embedding of `src/pricing_rules/engine.py`
(class `PricingRulesEngine`) and `src/pricing_ml/engine.py`
(`MLPricingEngine.optimize_price_with_constraints`).  Python `Decimal` and
`float` values are embedded as `ℚ` (all the properties checked here are exact
arithmetic/structural properties; no claim is about binary floating point).
Rule condition and action-value expressions are evaluated in the source by a
restricted Python `eval`; the engine only observes whether that evaluation
returns a value or raises, so an expression is embedded as a function from the
evaluation context to `Except String β` (`Except.error` standing for a raised
exception).  Django ORM reads are embedded as explicit list parameters; the
default queryset ordering `['priority', 'name']` declared on the `RuleSet`
model is applied explicitly, and Python's stable `sorted` / SQL `ORDER BY` are
embedded as the (stable) `List.insertionSort`.
-/

namespace Analiqo

/-- `PricingContext` of `src/pricing_rules/engine.py` (lines 18-38). -/
structure PricingContext where
  product_id : String
  current_price : ℚ
  cost : ℚ
  inventory_level : ℤ
  competitor_prices : List ℚ
  sales_velocity : ℚ
  marketplace : String
  category : String
  brand : String
  seasonality_factor : ℚ := 1
  demand_score : ℚ := 1
  buy_box_status : String := "unknown"
  margin_target : ℚ := 1/5
  custom_attributes : List (String × ℚ) := []

/-- `PricingResult` of `src/pricing_rules/engine.py` (lines 41-50).
`metadata` is a free-form dict in the source; the engine only ever passes the
empty dict through, so it is embedded as an association list. -/
structure PricingResult where
  new_price : ℚ
  confidence : ℚ
  reason : String
  rules_applied : List String
  safety_checks_passed : Bool
  warnings : List String
  metadata : List (String × String)
deriving DecidableEq

/-- Python `min(xs)` on a nonempty list, with the source's `0` default for an
empty competitor list (engine.py line 252). -/
def competitorMin (xs : List ℚ) : ℚ :=
  match xs with
  | [] => 0
  | x :: rest => rest.foldl min x

/-- Python `max(xs)`, with the source's `0` default (engine.py line 253). -/
def competitorMax (xs : List ℚ) : ℚ :=
  match xs with
  | [] => 0
  | x :: rest => rest.foldl max x

/-- Python `sum(xs) / len(xs)`, with the source's `0` default (line 254). -/
def competitorAvg (xs : List ℚ) : ℚ :=
  match xs with
  | [] => 0
  | _ => xs.sum / (xs.length : ℚ)

/-- The evaluation context handed to a rule *condition* expression
(`_evaluate_rule_condition`, engine.py lines 248-264).  Custom attributes are
merged into the dict in the source; they are kept as a separate field here. -/
structure CondCtx where
  current_price : ℚ
  cost : ℚ
  inventory : ℤ
  competitor_min : ℚ
  competitor_max : ℚ
  competitor_avg : ℚ
  sales_velocity : ℚ
  seasonality : ℚ
  demand_score : ℚ
  margin_current : ℚ
  margin_target : ℚ
  buy_box : Bool
  custom : List (String × ℚ)

/-- The evaluation context handed to a rule *action-value* expression
(`_calculate_rule_adjustment`, engine.py lines 283-293); note it exposes fewer
variables than the condition context and no custom attributes. -/
structure ActionCtx where
  current_price : ℚ
  cost : ℚ
  inventory : ℤ
  competitor_min : ℚ
  competitor_max : ℚ
  competitor_avg : ℚ
  sales_velocity : ℚ
  seasonality : ℚ
  demand_score : ℚ

/-- Building the condition evaluation context (engine.py lines 248-264). -/
def buildCondCtx (ctx : PricingContext) : CondCtx :=
  { current_price := ctx.current_price
    cost := ctx.cost
    inventory := ctx.inventory_level
    competitor_min := competitorMin ctx.competitor_prices
    competitor_max := competitorMax ctx.competitor_prices
    competitor_avg := competitorAvg ctx.competitor_prices
    sales_velocity := ctx.sales_velocity
    seasonality := ctx.seasonality_factor
    demand_score := ctx.demand_score
    margin_current :=
      if ctx.current_price > 0 then (ctx.current_price - ctx.cost) / ctx.current_price else 0
    margin_target := ctx.margin_target
    buy_box := ctx.buy_box_status = "won"
    custom := ctx.custom_attributes }

/-- Building the action-value evaluation context (engine.py lines 283-293). -/
def buildActionCtx (ctx : PricingContext) : ActionCtx :=
  { current_price := ctx.current_price
    cost := ctx.cost
    inventory := ctx.inventory_level
    competitor_min := competitorMin ctx.competitor_prices
    competitor_max := competitorMax ctx.competitor_prices
    competitor_avg := competitorAvg ctx.competitor_prices
    sales_velocity := ctx.sales_velocity
    seasonality := ctx.seasonality_factor
    demand_score := ctx.demand_score }

/-- A `PricingRule` row as the engine reads it: name, priority, active flag,
optional condition and action-value expressions (embedded as fallible
functions of the respective evaluation context, `none` for a falsy/absent
expression), the `action_type` string and the optional `weight` entry of the
rule's metadata dict (`rule.metadata.get('weight', 1.0)`, engine.py line 220). -/
structure PricingRule where
  name : String
  priority : ℕ
  is_active : Bool := true
  condition : Option (CondCtx → Except String Bool) := none
  action_type : String
  action_value : Option (ActionCtx → Except String ℚ) := none
  weight : Option ℚ := none

/-- `_evaluate_rule_condition` (engine.py lines 239-272): an absent condition
is always true; an evaluation error is caught and treated as false. -/
def evaluateRuleCondition (rule : PricingRule) (ctx : PricingContext) : Bool :=
  match rule.condition with
  | none => true
  | some f =>
    match f (buildCondCtx ctx) with
    | .ok b => b
    | .error _ => false

/-- `_calculate_rule_adjustment` (engine.py lines 274-301): an absent
action value yields `0`; an evaluation error is caught and yields `0`. -/
def calculateRuleAdjustment (rule : PricingRule) (ctx : PricingContext) : ℚ :=
  match rule.action_value with
  | none => 0
  | some f =>
    match f (buildActionCtx ctx) with
    | .ok v => v
    | .error _ => 0

/-- `_apply_price_adjustment` (engine.py lines 303-324). -/
def applyPriceAdjustment (current_price adjustment : ℚ) (action_type : String) : ℚ :=
  if action_type = "increase_percentage" then current_price * (1 + adjustment / 100)
  else if action_type = "decrease_percentage" then current_price * (1 - adjustment / 100)
  else if action_type = "increase_amount" then current_price + adjustment
  else if action_type = "decrease_amount" then current_price - adjustment
  else if action_type = "set_price" then adjustment
  else if action_type = "match_competitor" then adjustment
  else if action_type = "undercut_competitor" then adjustment * (99/100)
  else current_price

/-- The loop state of `_apply_rules` (engine.py lines 198-203).
The `warnings` list is only ever appended to by the per-rule exception handler
(lines 225-227); condition/action *evaluation* failures never reach it because
they are caught inside the two helpers above.  (The handler stays reachable in
the source only through non-evaluation failures such as a malformed metadata
value, which this embedding does not model.) -/
structure RuleAcc where
  new_price : ℚ
  rules_applied : List String
  warnings : List String
  confidence : ℚ
  reasons : List String

/-- One iteration of the rule loop of `_apply_rules` (engine.py lines 205-227). -/
def ruleStep (ctx : PricingContext) (s : RuleAcc) (rule : PricingRule) : RuleAcc :=
  if evaluateRuleCondition rule ctx then
    let price_adjustment := calculateRuleAdjustment rule ctx
    if price_adjustment ≠ 0 then
      { new_price := applyPriceAdjustment s.new_price price_adjustment rule.action_type
        rules_applied := s.rules_applied ++ [rule.name]
        warnings := s.warnings
        confidence := s.confidence * rule.weight.getD 1
        reasons := s.reasons ++ [rule.name ++ ": " ++ rule.action_type ++ " " ++ toString price_adjustment] }
    else s
  else s

/-- `_apply_rules` (engine.py lines 195-237), generalized over the starting
running price (the source starts at `context.current_price`). -/
def applyRulesFrom (rules : List PricingRule) (ctx : PricingContext) (startPrice : ℚ) :
    PricingResult :=
  let s := rules.foldl (ruleStep ctx) ⟨startPrice, [], [], 1, []⟩
  { new_price := s.new_price
    confidence := min s.confidence 1
    reason := if s.reasons = [] then "No rules applied" else String.intercalate "; " s.reasons
    rules_applied := s.rules_applied
    safety_checks_passed := true
    warnings := s.warnings
    metadata := [] }

/-- `_apply_rules` exactly as the source calls it. -/
def applyRules (rules : List PricingRule) (ctx : PricingContext) : PricingResult :=
  applyRulesFrom rules ctx ctx.current_price

/-- The `conditions` JSON of a `RuleSet` row as `_evaluate_rule_set_conditions`
reads it (engine.py lines 153-193); `none` stands for an absent key. -/
structure RuleSetConditions where
  marketplace : Option (List String) := none
  category : Option (List String) := none
  brand : Option (List String) := none
  inventory_min : Option ℤ := none
  inventory_max : Option ℤ := none
  price_min : Option ℚ := none
  price_max : Option ℚ := none

/-- Python's `not conditions` test on the conditions dict (engine.py line 157):
true exactly when no key is present. -/
def RuleSetConditions.isEmpty (c : RuleSetConditions) : Bool :=
  c.marketplace.isNone && c.category.isNone && c.brand.isNone &&
  c.inventory_min.isNone && c.inventory_max.isNone &&
  c.price_min.isNone && c.price_max.isNone

/-- A `RuleSet` row as the engine reads it, together with its related rules
(`rule_set.rules`). -/
structure RuleSet where
  name : String
  priority : ℕ
  conditions : RuleSetConditions := {}
  is_active : Bool := true
  rules : List PricingRule := []

/-- `_evaluate_rule_set_conditions` (engine.py lines 153-193). -/
def evaluateRuleSetConditions (rule_set : RuleSet) (ctx : PricingContext) : Bool :=
  let c := rule_set.conditions
  if c.isEmpty then true
  else if (match c.marketplace with
           | some allowed => !(allowed.contains ctx.marketplace)
           | none => false) then false
  else if (match c.category with
           | some allowed => !(allowed.contains ctx.category)
           | none => false) then false
  else if (match c.brand with
           | some allowed => !(allowed.contains ctx.brand)
           | none => false) then false
  else if (match c.inventory_min with
           | some m => decide (ctx.inventory_level < m)
           | none => false) then false
  else if (match c.inventory_max with
           | some m => decide (ctx.inventory_level > m)
           | none => false) then false
  else if (match c.price_min with
           | some m => decide (ctx.current_price < m)
           | none => false) then false
  else if (match c.price_max with
           | some m => decide (ctx.current_price > m)
           | none => false) then false
  else true

/-- The default queryset ordering of `RuleSet` rows: the model's
`Meta.ordering = ['priority', 'name']` (models.py lines 57-60), which Django
applies to the `RuleSet.objects.filter(...)` read in `_get_applicable_rules`. -/
def ruleSetOrder (a b : RuleSet) : Prop :=
  a.priority < b.priority ∨ (a.priority = b.priority ∧ a.name ≤ b.name)

instance : DecidableRel ruleSetOrder := fun a b => by
  unfold ruleSetOrder; infer_instance

/-- The comparison used at engine.py lines 147 and 151: ascending rule
`priority`. -/
def rulePriorityLe (a b : PricingRule) : Prop :=
  a.priority ≤ b.priority

instance : DecidableRel rulePriorityLe := fun a b => Nat.decLe a.priority b.priority

instance : IsTotal PricingRule rulePriorityLe :=
  ⟨fun a b => Nat.le_total a.priority b.priority⟩

instance : IsTrans PricingRule rulePriorityLe :=
  ⟨fun _ _ _ h h2 => Nat.le_trans h h2⟩

/-- `_get_applicable_rules` (engine.py lines 133-151): iterate the strategy's
active rule sets in the model's default `(priority, name)` order; for each
matching set append its active rules ordered by rule priority
(`order_by('priority')`); finally re-sort the flattened list by rule priority
(`sorted(applicable_rules, key=lambda r: r.priority)`, a stable sort). -/
def getApplicableRules (rule_sets : List RuleSet) (ctx : PricingContext) :
    List PricingRule :=
  let ordered_sets := (rule_sets.filter (·.is_active)).insertionSort ruleSetOrder
  let applicable_rules := ordered_sets.foldl
    (fun acc rule_set =>
      if evaluateRuleSetConditions rule_set ctx then
        acc ++ ((rule_set.rules.filter (·.is_active)).insertionSort rulePriorityLe)
      else acc)
    []
  applicable_rules.insertionSort rulePriorityLe

/-- A `SafetyConstraint` row as `_apply_safety_constraints` and
`_check_safety_constraint` read it: name, type tag, numeric threshold,
violation action and active flag. -/
structure SafetyConstraint where
  name : String
  constraint_type : String
  threshold : ℚ
  action : String
  is_active : Bool := true

/-- The dict returned by `_check_safety_constraint` (engine.py lines 369-425).
The human-readable `message` strings abbreviate the source's interpolated
f-strings (their numeric formatting is not modelled). -/
structure ConstraintCheck where
  passed : Bool
  message : String
  suggested_price : Option ℚ := none

/-- `_check_safety_constraint` (engine.py lines 369-425).  ℚ division is
total, so this embedding collapses the source's two `DivisionByZero` poles:
a *violated* `min_margin` constraint with `threshold = 1` (the suggested
price `cost / (1 - threshold)`, line 380) and a `max_price_change` constraint
with `current_price = 0` (line 389).  At those poles the source raises and
`evaluate_pricing` returns its fallback result instead; every theorem whose
conclusion would differ there carries a hypothesis excluding them. -/
def checkSafetyConstraint (constraint : SafetyConstraint) (new_price : ℚ)
    (ctx : PricingContext) : ConstraintCheck :=
  if constraint.constraint_type = "min_margin" then
    let threshold := constraint.threshold
    let margin := if new_price > 0 then (new_price - ctx.cost) / new_price else 0
    if margin < threshold then
      { passed := false
        message := "Margin below minimum"
        suggested_price := some (ctx.cost / (1 - threshold)) }
    else { passed := true, message := "Constraint satisfied" }
  else if constraint.constraint_type = "max_price_change" then
    let threshold := constraint.threshold
    let price_change := |new_price - ctx.current_price| / ctx.current_price
    if price_change > threshold then
      let max_change := ctx.current_price * threshold
      let suggested_price :=
        if new_price > ctx.current_price then ctx.current_price + max_change
        else ctx.current_price - max_change
      { passed := false
        message := "Price change exceeds maximum"
        suggested_price := some suggested_price }
    else { passed := true, message := "Constraint satisfied" }
  else if constraint.constraint_type = "min_price" then
    if new_price < constraint.threshold then
      { passed := false
        message := "Price below minimum"
        suggested_price := some constraint.threshold }
    else { passed := true, message := "Constraint satisfied" }
  else if constraint.constraint_type = "max_price" then
    if new_price > constraint.threshold then
      { passed := false
        message := "Price above maximum"
        suggested_price := some constraint.threshold }
    else { passed := true, message := "Constraint satisfied" }
  else { passed := true, message := "Constraint satisfied" }

/-- The loop state of `_apply_safety_constraints` (engine.py lines 334-336). -/
structure SafetyAcc where
  new_price : ℚ
  warnings : List String
  safety_passed : Bool

/-- One iteration of the constraint loop of `_apply_safety_constraints`
(engine.py lines 338-357). -/
def safetyStep (ctx : PricingContext) (s : SafetyAcc) (constraint : SafetyConstraint) :
    SafetyAcc :=
  let constraint_result := checkSafetyConstraint constraint s.new_price ctx
  if ¬ constraint_result.passed then
    if constraint.action = "block" then
      { new_price := ctx.current_price
        warnings := s.warnings ++ ["Safety constraint " ++ constraint.name ++ " blocked price change"]
        safety_passed := false }
    else if constraint.action = "adjust" then
      match constraint_result.suggested_price with
      | some p =>
        { new_price := p
          warnings := s.warnings ++ ["Safety constraint " ++ constraint.name ++ " adjusted price"]
          safety_passed := false }
      | none => { s with safety_passed := false }
    else if constraint.action = "warn" then
      { s with
        warnings := s.warnings ++
          ["Safety constraint " ++ constraint.name ++ " warning: " ++ constraint_result.message]
        safety_passed := false }
    else { s with safety_passed := false }
  else s

/-- `_apply_safety_constraints` (engine.py lines 326-367): the active
constraints are scanned in order against the running candidate price; note the
source sets `safety_passed = False` for *every* violated constraint before
dispatching on its action. -/
def applySafetyConstraints (result : PricingResult) (ctx : PricingContext)
    (constraints : List SafetyConstraint) : PricingResult :=
  let active := constraints.filter (·.is_active)
  let s := active.foldl (safetyStep ctx) ⟨result.new_price, result.warnings, true⟩
  { new_price := s.new_price
    confidence := result.confidence
    reason := result.reason
    rules_applied := result.rules_applied
    safety_checks_passed := s.safety_passed
    warnings := s.warnings
    metadata := result.metadata }

/-- A pricing strategy row; the engine only threads it through, so only an
identifier is embedded. -/
structure PricingStrategy where
  id : String

/-- The result returned when no strategy is found (engine.py lines 77-86). -/
def noStrategyResult (ctx : PricingContext) : PricingResult :=
  { new_price := ctx.current_price
    confidence := 0
    reason := "No valid pricing strategy found"
    rules_applied := []
    safety_checks_passed := false
    warnings := ["No pricing strategy available"]
    metadata := [] }

/-- The result built by the `except` handler of `evaluate_pricing`
(engine.py lines 102-112). -/
def evalErrorResult (ctx : PricingContext) (e : String) : PricingResult :=
  { new_price := ctx.current_price
    confidence := 0
    reason := "Error during pricing evaluation: " ++ e
    rules_applied := []
    safety_checks_passed := false
    warnings := ["Evaluation error: " ++ e]
    metadata := [] }

/-- `_log_execution` (engine.py lines 427-453): the audit write may fail, but
the failure is caught inside the method and only reported to the error log;
it never escapes to `evaluate_pricing`. -/
def logExecution (outcome : Except String Unit) : Option String :=
  match outcome with
  | .ok _ => none
  | .error e => some e

/-- `evaluate_pricing` (engine.py lines 63-112), with each fallible internal
step given by its outcome: strategy lookup, rule retrieval, rule application
and safety enforcement run inside the method's `try`, so a raise in any of
them produces the `evalErrorResult` fallback; the logging write is guarded
inside `_log_execution` itself and cannot alter the returned result. -/
def evaluatePricingGen (ctx : PricingContext)
    (strategyStep : Except String (Option PricingStrategy))
    (rulesStep : PricingStrategy → Except String (List PricingRule))
    (applyStep : List PricingRule → Except String PricingResult)
    (safetyStep : PricingResult → Except String PricingResult)
    (logStep : PricingResult → Except String Unit) : PricingResult :=
  match strategyStep with
  | .error e => evalErrorResult ctx e
  | .ok none => noStrategyResult ctx
  | .ok (some strategy) =>
    match rulesStep strategy with
    | .error e => evalErrorResult ctx e
    | .ok rules =>
      match applyStep rules with
      | .error e => evalErrorResult ctx e
      | .ok pricing_result =>
        match safetyStep pricing_result with
        | .error e => evalErrorResult ctx e
        | .ok final_result =>
          let _ := logExecution (logStep final_result)
          final_result

/-- `evaluate_pricing` on the happy path: a strategy exists and every internal
step is the engine's own (pure) computation. -/
def evaluatePricing (ctx : PricingContext) (rule_sets : List RuleSet)
    (constraints : List SafetyConstraint) : PricingResult :=
  evaluatePricingGen ctx
    (.ok (some ⟨"strategy"⟩))
    (fun _ => .ok (getApplicableRules rule_sets ctx))
    (fun rules => .ok (applyRules rules ctx))
    (fun pricing_result => .ok (applySafetyConstraints pricing_result ctx constraints))
    (fun _ => .ok ())

/-- `MLPricingResult` of `src/pricing_ml/engine.py` (lines 51-59), restricted
to the fields `optimize_price_with_constraints` fills with candidate-dependent
values (feature importance and prediction metadata are omitted). -/
structure MLPricingResult where
  predicted_price : ℚ
  confidence : ℚ
  model_type : String
  model_version : String
deriving DecidableEq

/-- `predict_demand` at a single price (pricing_ml/engine.py lines 120-161):
the underlying model inference is embedded as the function `demandModel` from
the candidate price to the raw prediction (the rest of the feature vector is
fixed by the context, which is constant inside the optimizer's loop); the
result is clamped to be non-negative (`max(0, demand)`, line 159). -/
def predictDemand (demandModel : ℚ → ℚ) (price : ℚ) : ℚ :=
  max 0 (demandModel price)

/-- `predict_buy_box_probability` (pricing_ml/engine.py lines 163-200): raw
model output clamped to `[0, 1]` (`max(0.0, min(1.0, probability))`). -/
def predictBuyBoxProbability (buyBoxModel : ℚ → ℚ) (price : ℚ) : ℚ :=
  max 0 (min 1 (buyBoxModel price))

/-- `np.linspace(effective_min_price, max_price, 20)` (pricing_ml/engine.py
line 225): 20 evenly spaced candidates including both endpoints. -/
def priceCandidates (lo hi : ℚ) : List ℚ :=
  (List.range 20).map (fun i : ℕ => lo + (hi - lo) * (i : ℚ) / 19)

/-- The composite score of one candidate price (pricing_ml/engine.py lines
234-246): `profit * 0.6 + revenue * 0.3 + buy_box_prob * 100 * 0.1` with
`expected_sales = demand * buy_box_prob`, `revenue = price * expected_sales`,
`profit = (price - cost) * expected_sales`. -/
def candidateScore (demandModel buyBoxModel : ℚ → ℚ) (cost price : ℚ) : ℚ :=
  let demand := predictDemand demandModel price
  let buy_box_prob := predictBuyBoxProbability buyBoxModel price
  let expected_sales := demand * buy_box_prob
  let revenue := price * expected_sales
  let profit := (price - cost) * expected_sales
  profit * (6/10) + revenue * (3/10) + buy_box_prob * 100 * (1/10)

/-- The `MLPricingResult` built for a candidate that becomes the current best
(pricing_ml/engine.py lines 251-266). -/
def mkCandidateResult (buyBoxModel : ℚ → ℚ) (price : ℚ) : MLPricingResult :=
  { predicted_price := price
    confidence := predictBuyBoxProbability buyBoxModel price
    model_type := "price_optimization"
    model_version := "ensemble" }

/-- One iteration of the candidate loop (pricing_ml/engine.py lines 231-270).
`best_score` starts at `float('-inf')`, embedded as `none`: the first
candidate always wins, and afterwards a candidate wins exactly when its score
is strictly greater (`score > best_score`). -/
def optimizeStep (demandModel buyBoxModel : ℚ → ℚ) (cost : ℚ)
    (best : Option (ℚ × MLPricingResult)) (price : ℚ) : Option (ℚ × MLPricingResult) :=
  let score := candidateScore demandModel buyBoxModel cost price
  match best with
  | none => some (score, mkCandidateResult buyBoxModel price)
  | some (best_score, best_result) =>
    if score > best_score then some (score, mkCandidateResult buyBoxModel price)
    else some (best_score, best_result)

/-- `optimize_price_with_constraints` (pricing_ml/engine.py lines 202-276).
The infeasibility raise (line 222) becomes `Except.error`.  The per-candidate
model calls are embedded as total functions, so the `best_result is None`
fallback to the single-shot regression (lines 272-274) is unreachable here and
is mapped to a designated error value. -/
def optimizePriceWithConstraints (demandModel buyBoxModel : ℚ → ℚ)
    (cost min_price max_price min_margin : ℚ) : Except String MLPricingResult :=
  let min_price_for_margin := cost / (1 - min_margin)
  let effective_min_price := max min_price min_price_for_margin
  if effective_min_price > max_price then
    .error "Cannot satisfy margin constraint within price range"
  else
    let candidates := priceCandidates effective_min_price max_price
    match candidates.foldl (optimizeStep demandModel buyBoxModel cost) none with
    | some (_, best_result) => .ok best_result
    | none => .error "fallback to predict_optimal_price"

/-- Packaging an ML result as a `PricingResult` candidate, for stating what
the Safety Constraint Enforcer would do with the ML-produced price. -/
def mlToPricingResult (r : MLPricingResult) : PricingResult :=
  { new_price := r.predicted_price
    confidence := r.confidence
    reason := ""
    rules_applied := []
    safety_checks_passed := true
    warnings := []
    metadata := [] }

/-! ### General lemmas about the safety-constraint scan -/

lemma safetyStep_preserves_false (ctx : PricingContext) (s : SafetyAcc)
    (c : SafetyConstraint) (h : s.safety_passed = false) :
    (safetyStep ctx s c).safety_passed = false := by
  cases hp : (checkSafetyConstraint c s.new_price ctx).passed with
  | true => simpa [safetyStep, hp] using h
  | false =>
    simp only [safetyStep, hp, Bool.false_eq_true, not_false_eq_true, if_true]
    split_ifs <;>
      first
        | rfl
        | (cases (checkSafetyConstraint c s.new_price ctx).suggested_price <;> rfl)

lemma safetyFold_preserves_false (ctx : PricingContext) :
    ∀ (cs : List SafetyConstraint) (s : SafetyAcc), s.safety_passed = false →
      (cs.foldl (safetyStep ctx) s).safety_passed = false := by
  intro cs
  induction cs with
  | nil => intro s h; exact h
  | cons c rest ih =>
    intro s h
    exact ih (safetyStep ctx s c) (safetyStep_preserves_false ctx s c h)

lemma safetyStep_of_violation (ctx : PricingContext) (s : SafetyAcc)
    (c : SafetyConstraint) (h : (checkSafetyConstraint c s.new_price ctx).passed = false) :
    (safetyStep ctx s c).safety_passed = false := by
  simp only [safetyStep, h, Bool.false_eq_true, not_false_eq_true, if_true]
  split_ifs <;>
    first
      | rfl
      | (cases (checkSafetyConstraint c s.new_price ctx).suggested_price <;> rfl)

lemma applySafetyConstraints_confidence (r : PricingResult) (ctx : PricingContext)
    (cs : List SafetyConstraint) :
    (applySafetyConstraints r ctx cs).confidence = r.confidence := rfl

lemma applySafetyConstraints_rules_applied (r : PricingResult) (ctx : PricingContext)
    (cs : List SafetyConstraint) :
    (applySafetyConstraints r ctx cs).rules_applied = r.rules_applied := rfl

lemma safetyStep_price_fixed (ctx : PricingContext) (s : SafetyAcc) (c : SafetyConstraint)
    (hs : s.new_price = ctx.current_price)
    (hc : c.action = "adjust" → (checkSafetyConstraint c ctx.current_price ctx).passed = true) :
    (safetyStep ctx s c).new_price = ctx.current_price := by
  cases hp : (checkSafetyConstraint c s.new_price ctx).passed with
  | true => simpa [safetyStep, hp] using hs
  | false =>
    simp only [safetyStep, hp, Bool.false_eq_true, not_false_eq_true, if_true]
    split_ifs with hblock hadj
    · rfl
    · rw [hs] at hp
      rw [hc hadj] at hp
      exact absurd hp (by simp)
    · exact hs
    · exact hs

lemma safetyFold_price_fixed (ctx : PricingContext) :
    ∀ (cs : List SafetyConstraint) (s : SafetyAcc), s.new_price = ctx.current_price →
      (∀ c ∈ cs, c.action = "adjust" →
        (checkSafetyConstraint c ctx.current_price ctx).passed = true) →
      (cs.foldl (safetyStep ctx) s).new_price = ctx.current_price := by
  intro cs
  induction cs with
  | nil => intro s hs _; exact hs
  | cons c rest ih =>
    intro s hs hall
    exact ih (safetyStep ctx s c)
      (safetyStep_price_fixed ctx s c hs (hall c (by simp)))
      (fun d hd => hall d (by simp [hd]))

/-! ### General lemmas about the rule-application fold -/

lemma ruleFold_no_match (ctx : PricingContext) :
    ∀ (rules : List PricingRule) (s : RuleAcc),
      (∀ r ∈ rules, evaluateRuleCondition r ctx = false) →
      rules.foldl (ruleStep ctx) s = s := by
  intro rules
  induction rules with
  | nil => intro s _; rfl
  | cons r rest ih =>
    intro s h
    have hr : evaluateRuleCondition r ctx = false := h r (by simp)
    have hstep : ruleStep ctx s r = s := by
      unfold ruleStep
      simp [hr]
    rw [List.foldl_cons, hstep]
    exact ih s (fun d hd => h d (by simp [hd]))

lemma evaluatePricing_eq (ctx : PricingContext) (rule_sets : List RuleSet)
    (constraints : List SafetyConstraint) :
    evaluatePricing ctx rule_sets constraints =
      applySafetyConstraints (applyRules (getApplicableRules rule_sets ctx) ctx)
        ctx constraints := rfl

lemma ruleStep_of_condition_error (ctx : PricingContext) (s : RuleAcc) (r : PricingRule)
    (f : CondCtx → Except String Bool) (e : String)
    (hc : r.condition = some f) (he : f (buildCondCtx ctx) = .error e) :
    ruleStep ctx s r = s := by
  have hfalse : evaluateRuleCondition r ctx = false := by
    simp [evaluateRuleCondition, hc, he]
  simp [ruleStep, hfalse]

lemma ruleStep_of_action_error (ctx : PricingContext) (s : RuleAcc) (r : PricingRule)
    (g : ActionCtx → Except String ℚ) (e : String)
    (hg : r.action_value = some g) (he : g (buildActionCtx ctx) = .error e) :
    ruleStep ctx s r = s := by
  have hzero : calculateRuleAdjustment r ctx = 0 := by
    simp [calculateRuleAdjustment, hg, he]
  by_cases hcond : evaluateRuleCondition r ctx <;> simp [ruleStep, hcond, hzero]

lemma ruleFold_price_independent (ctx : PricingContext) :
    ∀ (rules : List PricingRule) (s₁ s₂ : RuleAcc),
      s₁.rules_applied = s₂.rules_applied → s₁.warnings = s₂.warnings →
      s₁.confidence = s₂.confidence → s₁.reasons = s₂.reasons →
      (rules.foldl (ruleStep ctx) s₁).rules_applied = (rules.foldl (ruleStep ctx) s₂).rules_applied ∧
      (rules.foldl (ruleStep ctx) s₁).warnings = (rules.foldl (ruleStep ctx) s₂).warnings ∧
      (rules.foldl (ruleStep ctx) s₁).confidence = (rules.foldl (ruleStep ctx) s₂).confidence ∧
      (rules.foldl (ruleStep ctx) s₁).reasons = (rules.foldl (ruleStep ctx) s₂).reasons := by
  intro rules
  induction rules with
  | nil => intro s₁ s₂ h1 h2 h3 h4; exact ⟨h1, h2, h3, h4⟩
  | cons r rest ih =>
    intro s₁ s₂ h1 h2 h3 h4
    simp only [List.foldl_cons]
    apply ih
    all_goals
      by_cases hcond : evaluateRuleCondition r ctx <;>
        by_cases hz : calculateRuleAdjustment r ctx = 0 <;>
          simp [ruleStep, hcond, hz, h1, h2, h3, h4]

lemma mem_rule_accumulation (ctx : PricingContext) :
    ∀ (sets : List RuleSet) (acc : List PricingRule) (x : PricingRule),
      x ∈ sets.foldl
        (fun acc rule_set =>
          if evaluateRuleSetConditions rule_set ctx then
            acc ++ ((rule_set.rules.filter (·.is_active)).insertionSort rulePriorityLe)
          else acc) acc →
      x ∈ acc ∨ ∃ s ∈ sets, x ∈ s.rules := by
  intro sets
  induction sets with
  | nil => intro acc x h; exact Or.inl h
  | cons rs rest ih =>
    intro acc x h
    simp only [List.foldl_cons] at h
    rcases ih _ x h with hacc | ⟨s, hs, hx⟩
    · by_cases hcond : evaluateRuleSetConditions rs ctx
      · rw [if_pos hcond] at hacc
        rcases List.mem_append.mp hacc with h1 | h2
        · exact Or.inl h1
        · refine Or.inr ⟨rs, by simp, ?_⟩
          have := (List.mem_insertionSort rulePriorityLe).mp h2
          exact List.mem_of_mem_filter this
      · rw [if_neg hcond] at hacc
        exact Or.inl hacc
    · exact Or.inr ⟨s, by simp [hs], hx⟩

lemma mem_getApplicableRules (rule_sets : List RuleSet) (ctx : PricingContext)
    (x : PricingRule) (h : x ∈ getApplicableRules rule_sets ctx) :
    ∃ s ∈ rule_sets, x ∈ s.rules := by
  unfold getApplicableRules at h
  have h2 := (List.mem_insertionSort rulePriorityLe).mp h
  rcases mem_rule_accumulation ctx _ [] x h2 with hnil | ⟨s, hs, hx⟩
  · simp at hnil
  · have : s ∈ rule_sets := by
      have := (List.mem_insertionSort ruleSetOrder).mp hs
      exact List.mem_of_mem_filter this
    exact ⟨s, this, hx⟩

lemma ruleFold_confidence_nonneg (ctx : PricingContext) :
    ∀ (rules : List PricingRule) (s : RuleAcc),
      0 ≤ s.confidence → (∀ r ∈ rules, 0 ≤ r.weight.getD 1) →
      0 ≤ (rules.foldl (ruleStep ctx) s).confidence := by
  intro rules
  induction rules with
  | nil => intro s hs _; exact hs
  | cons r rest ih =>
    intro s hs hall
    simp only [List.foldl_cons]
    apply ih
    · by_cases hcond : evaluateRuleCondition r ctx
      · by_cases hz : calculateRuleAdjustment r ctx = 0
        · simpa [ruleStep, hcond, hz] using hs
        · have := mul_nonneg hs (hall r (by simp))
          simpa [ruleStep, hcond, hz] using this
      · simpa [ruleStep, hcond] using hs
    · exact fun d hd => hall d (by simp [hd])

/-! ### General lemmas about the candidate grid search -/

lemma optimizeFold_from_some (dM bM : ℚ → ℚ) (cost : ℚ) :
    ∀ (rest : List ℚ) (s₀ : ℚ) (r₀ : MLPricingResult),
      ∃ s r, rest.foldl (optimizeStep dM bM cost) (some (s₀, r₀)) = some (s, r) ∧
        ((s = s₀ ∧ r = r₀) ∨
          (r.predicted_price ∈ rest ∧ r = mkCandidateResult bM r.predicted_price ∧
            s = candidateScore dM bM cost r.predicted_price)) ∧
        s₀ ≤ s ∧
        ∀ p ∈ rest, candidateScore dM bM cost p ≤ s := by
  intro rest
  induction rest with
  | nil =>
    intro s₀ r₀
    exact ⟨s₀, r₀, rfl, Or.inl ⟨rfl, rfl⟩, le_refl s₀, by simp⟩
  | cons p ps ih =>
    intro s₀ r₀
    by_cases hgt : candidateScore dM bM cost p > s₀
    · have hstep : optimizeStep dM bM cost (some (s₀, r₀)) p =
          some (candidateScore dM bM cost p, mkCandidateResult bM p) := by
        simp [optimizeStep, hgt]
      obtain ⟨s, r, heq, hdisj, hle, hall⟩ :=
        ih (candidateScore dM bM cost p) (mkCandidateResult bM p)
      refine ⟨s, r, ?_, ?_, ?_, ?_⟩
      · rw [List.foldl_cons, hstep]; exact heq
      · rcases hdisj with ⟨hs, hr⟩ | ⟨hmem, hr, hs⟩
        · refine Or.inr ⟨?_, ?_, ?_⟩
          · rw [hr]; simp [mkCandidateResult]
          · rw [hr]; simp [mkCandidateResult]
          · rw [hs, hr]; simp [mkCandidateResult]
        · exact Or.inr ⟨by simp [hmem], hr, hs⟩
      · exact le_trans (le_of_lt hgt) hle
      · intro q hq
        rcases List.mem_cons.mp hq with hq | hq
        · rw [hq]; exact hle
        · exact hall q hq
    · have hstep : optimizeStep dM bM cost (some (s₀, r₀)) p = some (s₀, r₀) := by
        simp [optimizeStep, hgt]
      obtain ⟨s, r, heq, hdisj, hle, hall⟩ := ih s₀ r₀
      refine ⟨s, r, ?_, ?_, hle, ?_⟩
      · rw [List.foldl_cons, hstep]; exact heq
      · rcases hdisj with ⟨hs, hr⟩ | ⟨hmem, hr, hs⟩
        · exact Or.inl ⟨hs, hr⟩
        · exact Or.inr ⟨by simp [hmem], hr, hs⟩
      · intro q hq
        rcases List.mem_cons.mp hq with hq | hq
        · rw [hq]; exact le_trans (not_lt.mp hgt) hle
        · exact hall q hq

lemma optimizeFold_from_none (dM bM : ℚ → ℚ) (cost : ℚ) (l : List ℚ) (hl : l ≠ []) :
    ∃ s r, l.foldl (optimizeStep dM bM cost) none = some (s, r) ∧
      r.predicted_price ∈ l ∧
      r = mkCandidateResult bM r.predicted_price ∧
      s = candidateScore dM bM cost r.predicted_price ∧
      ∀ p ∈ l, candidateScore dM bM cost p ≤ s := by
  cases l with
  | nil => exact absurd rfl hl
  | cons p ps =>
    have hstep : optimizeStep dM bM cost none p =
        some (candidateScore dM bM cost p, mkCandidateResult bM p) := rfl
    obtain ⟨s, r, heq, hdisj, hle, hall⟩ :=
      optimizeFold_from_some dM bM cost ps (candidateScore dM bM cost p) (mkCandidateResult bM p)
    refine ⟨s, r, ?_, ?_, ?_, ?_, ?_⟩
    · rw [List.foldl_cons, hstep]; exact heq
    · rcases hdisj with ⟨_, hr⟩ | ⟨hmem, _, _⟩
      · rw [hr]; simp [mkCandidateResult]
      · simp [hmem]
    · rcases hdisj with ⟨_, hr⟩ | ⟨_, hr, _⟩
      · rw [hr]; simp [mkCandidateResult]
      · exact hr
    · rcases hdisj with ⟨hs, hr⟩ | ⟨_, _, hs⟩
      · rw [hs, hr]; simp [mkCandidateResult]
      · exact hs
    · intro q hq
      rcases List.mem_cons.mp hq with hq | hq
      · rw [hq]; exact hle
      · exact hall q hq

lemma priceCandidates_ne_nil (lo hi : ℚ) : priceCandidates lo hi ≠ [] := by
  have : (priceCandidates lo hi).length = 20 := by
    rw [priceCandidates, List.length_map, List.length_range]
  intro h
  rw [h] at this
  simp at this

/-! ### Claim C1: which violation actions unset `safety_checks_passed` -/

/-- Example-2 context: `cost = 15.00`, candidate price `19.00`. -/
def ctxEx2 : PricingContext :=
  { product_id := "SKU-1", current_price := 19, cost := 15, inventory_level := 100,
    competitor_prices := [], sales_velocity := 5, marketplace := "amazon",
    category := "electronics", brand := "acme" }

/-- The provisional pipeline result carrying the candidate price `19.00`. -/
def resEx2 : PricingResult :=
  { new_price := 19, confidence := 1, reason := "rule output", rules_applied := ["rule1"],
    safety_checks_passed := true, warnings := [], metadata := [] }

/-- A `min_margin` constraint, threshold `0.30`, violation action `adjust`. -/
def conEx2 : SafetyConstraint :=
  { name := "min-margin-30", constraint_type := "min_margin", threshold := 3/10,
    action := "adjust" }

/-- C1 counterexample: in the spec's own Example 2 (`cost = 15.00`, a
`min_margin` constraint with threshold `0.30` and action `adjust`, candidate
price `19.00`) the enforcer does adjust the price to `15 / 0.7 = 150/7 ≈ 21.43`
and appends a warning, but `safety_checks_passed` comes back `false`, not
`true` as the claim states: the source sets `safety_passed = False` for every
violated constraint, not only for `block`. -/
theorem C1_counterexample :
    (applySafetyConstraints resEx2 ctxEx2 [conEx2]).new_price = 150/7 ∧
    (applySafetyConstraints resEx2 ctxEx2 [conEx2]).warnings =
      ["Safety constraint min-margin-30 adjusted price"] ∧
    (applySafetyConstraints resEx2 ctxEx2 [conEx2]).safety_checks_passed = false := by
  norm_num [applySafetyConstraints, safetyStep, checkSafetyConstraint, resEx2, ctxEx2, conEx2]
  rw [if_neg (by decide : ¬ ("adjust" = "block"))]
  norm_num
  rfl

/-- C1 (amended): a violated `adjust` or `warn` constraint adjusts/keeps the
price and appends a warning exactly as claimed, but it does NOT leave
`safety_checks_passed` true: `_apply_safety_constraints` flips
`safety_checks_passed` to false for every violated active constraint,
whatever its violation action.  Stated for a violation of the first active
constraint of the scan; the flag can never return to true afterwards. -/
theorem C1_theorem (r : PricingResult) (ctx : PricingContext) (c : SafetyConstraint)
    (cs : List SafetyConstraint) (hact : c.is_active = true)
    (hviol : (checkSafetyConstraint c r.new_price ctx).passed = false) :
    (applySafetyConstraints r ctx (c :: cs)).safety_checks_passed = false := by
  have hfilter : (c :: cs).filter (·.is_active) = c :: cs.filter (·.is_active) := by
    simp [List.filter_cons, hact]
  simp only [applySafetyConstraints, hfilter, List.foldl_cons]
  exact safetyFold_preserves_false ctx _ _
    (safetyStep_of_violation ctx ⟨r.new_price, r.warnings, true⟩ c hviol)

/-- C1 witness: the amended theorem applied to the Example-2 data. -/
theorem C1_witness :
    conEx2.is_active = true ∧
    (checkSafetyConstraint conEx2 resEx2.new_price ctxEx2).passed = false ∧
    (applySafetyConstraints resEx2 ctxEx2 [conEx2]).safety_checks_passed = false := by
  have hv : (checkSafetyConstraint conEx2 resEx2.new_price ctxEx2).passed = false := by
    norm_num [checkSafetyConstraint, conEx2, resEx2, ctxEx2]
  exact ⟨rfl, hv, C1_theorem resEx2 ctxEx2 conEx2 [] rfl hv⟩

/-! ### Claim C2: ordering of the flattened rule list -/

/-- A context that matches every rule set with empty conditions. -/
def ctxC2 : PricingContext :=
  { product_id := "SKU-2", current_price := 10, cost := 4, inventory_level := 50,
    competitor_prices := [], sales_velocity := 2, marketplace := "amazon",
    category := "books", brand := "acme" }

/-- A rule with a large priority number inside the lower-priority rule set. -/
def ruleA2 : PricingRule := { name := "ruleA", priority := 100, action_type := "set_price" }

/-- A rule with a small priority number inside the higher-priority rule set. -/
def ruleB2 : PricingRule := { name := "ruleB", priority := 1, action_type := "set_price" }

/-- Rule set with priority 1 (highest-priority rule set). -/
def rsA2 : RuleSet := { name := "setA", priority := 1, rules := [ruleA2] }

/-- Rule set with priority 2. -/
def rsB2 : RuleSet := { name := "setB", priority := 2, rules := [ruleB2] }

/-- C2 counterexample: the rule of the priority-2 RuleSet (`ruleB`, rule
priority 1) precedes the rule of the priority-1 RuleSet (`ruleA`, rule
priority 100), because `_get_applicable_rules` finally re-sorts the flattened
list by *rule* priority alone; RuleSet priority is not the primary key as the
claim states. -/
theorem C2_counterexample :
    (getApplicableRules [rsA2, rsB2] ctxC2).map PricingRule.name = ["ruleB", "ruleA"] ∧
    (getApplicableRules [rsA2, rsB2] ctxC2).map PricingRule.name ≠ ["ruleA", "ruleB"] := by
  exact ⟨rfl, by decide⟩

/-- C2 (amended): the flattened list returned by the matcher is sorted by
ascending *Rule* priority as the only comparison key (the final
`sorted(applicable_rules, key=lambda r: r.priority)`); RuleSet priority and
names only influence the ordering among rules of equal rule priority through
the stability of the sort, and a rule of a lower-priority-number RuleSet does
not in general precede the rules of higher-priority-number RuleSets. -/
theorem C2_theorem (rule_sets : List RuleSet) (ctx : PricingContext) :
    List.Sorted rulePriorityLe (getApplicableRules rule_sets ctx) := by
  unfold getApplicableRules
  exact List.sorted_insertionSort rulePriorityLe _

/-! ### Claim C4: evaluation with no matching rules -/

/-- Context with `current_price = 10`. -/
def ctxC4 : PricingContext :=
  { product_id := "SKU-4", current_price := 10, cost := 2, inventory_level := 5,
    competitor_prices := [], sales_velocity := 1, marketplace := "amazon",
    category := "toys", brand := "acme" }

/-- An active `min_price` constraint with threshold `12` and action `adjust`;
it is violated by the current price itself. -/
def conC4 : SafetyConstraint :=
  { name := "floor-12", constraint_type := "min_price", threshold := 12, action := "adjust" }

/-- C4 counterexample: with no rule sets at all (hence no matching rule) but
an active violated `adjust` constraint, `evaluate_pricing` returns
`confidence == 1.0` and `rules_applied == []` as claimed, yet
`new_price = 12 ≠ 10 = current_price`: the safety enforcer moves the price
even though no rule fired, contradicting the claim's "including when active
safety constraints are configured". -/
theorem C4_counterexample :
    (evaluatePricing ctxC4 [] [conC4]).new_price = 12 ∧
    ctxC4.current_price = 10 ∧ ((12:ℚ) ≠ 10) ∧
    (evaluatePricing ctxC4 [] [conC4]).confidence = 1 ∧
    (evaluatePricing ctxC4 [] [conC4]).rules_applied = [] := by
  norm_num [evaluatePricing, evaluatePricingGen, getApplicableRules, applyRules,
    applyRulesFrom, applySafetyConstraints, safetyStep, checkSafetyConstraint,
    List.insertionSort, ctxC4, conC4]
  simp +decide

/-- C4 (amended): for every Context and rule configuration in which no
applicable rule's condition holds, `evaluate_pricing` returns
`confidence == 1.0` and `rules_applied == []`; and `new_price == current_price`
holds provided no active `adjust` constraint is violated at `current_price`
(a violated `block` or `warn` constraint still leaves the price at
`current_price`, but a violated `adjust` constraint replaces it with the
constraint's suggested price).  Stated away from the source's
`DivisionByZero` poles in `_check_safety_constraint` — a `min_margin`
constraint with `threshold = 1` (engine.py line 380) or a `max_price_change`
constraint with `current_price = 0` (line 389) — where `evaluate_pricing`
instead returns the fallback result with `confidence == 0.0`. -/
theorem C4_theorem (ctx : PricingContext) (rule_sets : List RuleSet)
    (constraints : List SafetyConstraint)
    (hno : ∀ r ∈ getApplicableRules rule_sets ctx, evaluateRuleCondition r ctx = false)
    (_hthr : ∀ c ∈ constraints, c.constraint_type = "min_margin" → c.threshold ≠ 1)
    (_hcp : ∀ c ∈ constraints, c.constraint_type = "max_price_change" →
      ctx.current_price ≠ 0) :
    (evaluatePricing ctx rule_sets constraints).confidence = 1 ∧
    (evaluatePricing ctx rule_sets constraints).rules_applied = [] ∧
    ((∀ c ∈ constraints, c.is_active = true → c.action = "adjust" →
        (checkSafetyConstraint c ctx.current_price ctx).passed = true) →
      (evaluatePricing ctx rule_sets constraints).new_price = ctx.current_price) := by
  have hfold := ruleFold_no_match ctx (getApplicableRules rule_sets ctx)
    ⟨ctx.current_price, [], [], 1, []⟩ hno
  have happly : applyRules (getApplicableRules rule_sets ctx) ctx =
      { new_price := ctx.current_price, confidence := 1, reason := "No rules applied",
        rules_applied := [], safety_checks_passed := true, warnings := [], metadata := [] } := by
    unfold applyRules applyRulesFrom
    rw [hfold]
    norm_num
  rw [evaluatePricing_eq, happly]
  refine ⟨rfl, rfl, ?_⟩
  intro hsafe
  have hfix := safetyFold_price_fixed ctx (constraints.filter (·.is_active))
    ⟨ctx.current_price, [], true⟩ rfl ?_
  · exact hfix
  · intro c hc hadj
    have hmem := List.mem_filter.mp hc
    exact hsafe c hmem.1 (by simpa using hmem.2) hadj

/-- C4 witness: a rule set whose only rule has a false condition, plus a
satisfied `adjust` constraint. -/
def rFalse4 : PricingRule :=
  { name := "never", priority := 1, condition := some (fun _ => .ok false),
    action_type := "set_price", action_value := some (fun _ => .ok 99) }

/-- Rule set containing only the never-matching rule. -/
def rsFalse4 : RuleSet := { name := "set4", priority := 1, rules := [rFalse4] }

/-- A satisfied `adjust` constraint (threshold `5` below the current price). -/
def conC4ok : SafetyConstraint :=
  { name := "floor-5", constraint_type := "min_price", threshold := 5, action := "adjust" }

/-- C4 witness: the amended theorem applied to a concrete configuration. -/
theorem C4_witness :
    (evaluatePricing ctxC4 [rsFalse4] [conC4ok]).confidence = 1 ∧
    (evaluatePricing ctxC4 [rsFalse4] [conC4ok]).rules_applied = [] ∧
    (evaluatePricing ctxC4 [rsFalse4] [conC4ok]).new_price = ctxC4.current_price := by
  have h := C4_theorem ctxC4 [rsFalse4] [conC4ok] ?hno ?hthr ?hcp
  case hno =>
    intro r hr
    have : getApplicableRules [rsFalse4] ctxC4 = [rFalse4] := by rfl
    rw [this] at hr
    simp at hr
    rw [hr]
    rfl
  case hthr =>
    intro c hc htype
    simp at hc
    rw [hc] at htype
    exact absurd htype (by decide)
  case hcp =>
    intro c hc htype
    simp at hc
    rw [hc] at htype
    exact absurd htype (by decide)
  refine ⟨h.1, h.2.1, h.2.2 ?_⟩
  intro c hc _ _
  simp at hc
  rw [hc]
  simp +decide [checkSafetyConstraint, conC4ok, ctxC4]

/-! ### Claim C5: handling of rules whose expressions fail to evaluate -/

/-- Context for the C5 scenario. -/
def ctxC5 : PricingContext :=
  { product_id := "SKU-5", current_price := 10, cost := 3, inventory_level := 8,
    competitor_prices := [], sales_velocity := 1, marketplace := "amazon",
    category := "games", brand := "acme" }

/-- A rule whose condition expression raises (e.g. an unknown variable). -/
def badCond5 : PricingRule :=
  { name := "badCond", priority := 1,
    condition := some (fun _ => .error "unknown variable"),
    action_type := "set_price", action_value := some (fun _ => .ok 5) }

/-- A rule whose action-value expression raises (e.g. a division by zero). -/
def badAct5 : PricingRule :=
  { name := "badAct", priority := 2, condition := none,
    action_type := "set_price", action_value := some (fun _ => .error "division by zero") }

/-- A healthy rule that sets the price to `7`. -/
def good5 : PricingRule :=
  { name := "good", priority := 3, condition := none,
    action_type := "set_price", action_value := some (fun _ => .ok 7) }

/-- C5 counterexample: a pipeline containing a rule whose condition raises and
a rule whose action-value raises skips both and still applies the remaining
rule — but the returned warnings list is empty: no warning is appended for
either failure, because `_evaluate_rule_condition` swallows the exception
(returning `False`) and `_calculate_rule_adjustment` swallows it (returning
`0`), so the warning-appending `except` branch of `_apply_rules` is never
reached. -/
theorem C5_counterexample :
    (applyRules [badCond5, badAct5, good5] ctxC5).warnings = [] ∧
    (applyRules [badCond5, badAct5, good5] ctxC5).rules_applied = ["good"] ∧
    (applyRules [badCond5, badAct5, good5] ctxC5).new_price = 7 := by
  norm_num [applyRules, applyRulesFrom, ruleStep, evaluateRuleCondition,
    calculateRuleAdjustment, applyPriceAdjustment, badCond5, badAct5, good5, ctxC5]
  simp +decide

/-- C5 (amended): a rule whose condition expression or action-value expression
fails to evaluate is skipped and the pipeline continues with the remaining
rules — the whole run is observationally identical to running the pipeline
without that rule — but NO warning is appended to the result (the claim's
"appends a warning" does not happen: both evaluation helpers swallow the
error before the pipeline's warning-recording handler can see it). -/
theorem C5_theorem (ctx : PricingContext) (p : ℚ) (rules₁ rules₂ : List PricingRule)
    (r : PricingRule)
    (h : (∃ f e, r.condition = some f ∧ f (buildCondCtx ctx) = .error e) ∨
         (∃ g e, r.action_value = some g ∧ g (buildActionCtx ctx) = .error e)) :
    applyRulesFrom (rules₁ ++ r :: rules₂) ctx p = applyRulesFrom (rules₁ ++ rules₂) ctx p := by
  have hstep : ∀ s, ruleStep ctx s r = s := by
    intro s
    rcases h with ⟨f, e, hc, he⟩ | ⟨g, e, hg, he⟩
    · exact ruleStep_of_condition_error ctx s r f e hc he
    · exact ruleStep_of_action_error ctx s r g e hg he
  unfold applyRulesFrom
  rw [List.foldl_append, List.foldl_append, List.foldl_cons, hstep]

/-- C5 witness: the amended theorem applied to the concrete failing rule. -/
theorem C5_witness :
    applyRulesFrom ([] ++ badCond5 :: [good5]) ctxC5 10 =
      applyRulesFrom ([] ++ [good5]) ctxC5 10 :=
  C5_theorem ctxC5 10 [] [good5] badCond5
    (Or.inl ⟨fun _ => .error "unknown variable", "unknown variable", rfl, rfl⟩)

/-! ### Claim C7: rule conditions never see intermediate prices -/

/-- C7: in `_apply_rules`, every rule's condition (and action value) is
evaluated against the original Context only, never against the running price:
replacing the starting running price of the pass by any other value changes no
condition outcome, hence leaves the applied-rule list, the confidence, the
reason and the warnings of the result unchanged (only `new_price` can
differ). -/
theorem C7_theorem (rules : List PricingRule) (ctx : PricingContext) (p q : ℚ) :
    (applyRulesFrom rules ctx p).rules_applied = (applyRulesFrom rules ctx q).rules_applied ∧
    (applyRulesFrom rules ctx p).confidence = (applyRulesFrom rules ctx q).confidence ∧
    (applyRulesFrom rules ctx p).reason = (applyRulesFrom rules ctx q).reason ∧
    (applyRulesFrom rules ctx p).warnings = (applyRulesFrom rules ctx q).warnings := by
  obtain ⟨h1, h2, h3, h4⟩ := ruleFold_price_independent ctx rules
    ⟨p, [], [], 1, []⟩ ⟨q, [], [], 1, []⟩ rfl rfl rfl rfl
  refine ⟨?_, ?_, ?_, ?_⟩ <;> simp only [applyRulesFrom]
  · exact h1
  · rw [h3]
  · rw [h4]
  · exact h2

/-! ### Claim C8: the price transforms of the action types -/

/-- Context with `current_price = 100`. -/
def ctxC8 : PricingContext :=
  { product_id := "SKU-8", current_price := 100, cost := 20, inventory_level := 3,
    competitor_prices := [], sales_velocity := 1, marketplace := "amazon",
    category := "tools", brand := "acme" }

/-- An `undercut_competitor` rule whose action expression yields `P = 0`. -/
def undercut0 : PricingRule :=
  { name := "undercut", priority := 1, action_type := "undercut_competitor",
    action_value := some (fun _ => .ok 0) }

/-- An `undercut_competitor` rule whose action expression yields `P = 50`. -/
def undercut50 : PricingRule :=
  { name := "undercut", priority := 1, action_type := "undercut_competitor",
    action_value := some (fun _ => .ok 50) }

/-- C8 counterexample: with reference price `P = 0` the running price does not
become `P * 0.99 = 0`: `_apply_rules` skips any rule whose computed adjustment
is `0` (`if price_adjustment != 0`), so the price stays at `100` and the rule
is not even recorded as applied — contradicting the claim's "for every value
of P including P == 0". -/
theorem C8_counterexample :
    (applyRules [undercut0] ctxC8).new_price = 100 ∧
    ((100:ℚ) ≠ 0 * (99/100)) ∧
    (applyRules [undercut0] ctxC8).rules_applied = [] := by
  norm_num [applyRules, applyRulesFrom, ruleStep, evaluateRuleCondition,
    calculateRuleAdjustment, undercut0, ctxC8]

/-- C8 (amended): whenever a rule's condition holds and its action value `v`
is nonzero, the running price becomes `applyPriceAdjustment` of the previous
price, which for `undercut_competitor` is exactly `v * 0.99`, for
`increase_percentage`/`decrease_percentage` is `price * (1 ± v/100)`, for
`increase_amount`/`decrease_amount` is `price ± v`, and for
`set_price`/`match_competitor` is `v`; but when the action value is `0`
(including an `undercut_competitor` reference price of `0`) the rule is
skipped entirely and the price is unchanged. -/
theorem C8_theorem (ctx : PricingContext) (r : PricingRule) (v p : ℚ)
    (hcond : evaluateRuleCondition r ctx = true)
    (hadj : calculateRuleAdjustment r ctx = v) :
    (v ≠ 0 → (applyRulesFrom [r] ctx p).new_price = applyPriceAdjustment p v r.action_type) ∧
    (v = 0 → (applyRulesFrom [r] ctx p).new_price = p) ∧
    applyPriceAdjustment p v "undercut_competitor" = v * (99/100) ∧
    applyPriceAdjustment p v "increase_percentage" = p * (1 + v / 100) ∧
    applyPriceAdjustment p v "decrease_percentage" = p * (1 - v / 100) ∧
    applyPriceAdjustment p v "increase_amount" = p + v ∧
    applyPriceAdjustment p v "decrease_amount" = p - v ∧
    applyPriceAdjustment p v "set_price" = v ∧
    applyPriceAdjustment p v "match_competitor" = v := by
  refine ⟨?_, ?_, rfl, rfl, rfl, rfl, rfl, rfl, rfl⟩
  · intro hv
    simp [applyRulesFrom, ruleStep, hcond, hadj, hv]
  · intro hv
    simp [applyRulesFrom, ruleStep, hcond, hadj, hv]

/-- C8 witness: the amended theorem applied to an `undercut_competitor` rule
with reference price `50`, starting from running price `100`. -/
theorem C8_witness :
    (applyRulesFrom [undercut50] ctxC8 100).new_price = 50 * (99/100) := by
  have h := C8_theorem ctxC8 undercut50 50 100 rfl rfl
  calc (applyRulesFrom [undercut50] ctxC8 100).new_price
      = applyPriceAdjustment 100 50 undercut50.action_type := h.1 (by norm_num)
    _ = 50 * (99/100) := h.2.2.1

/-! ### Claim C9: the confidence bound -/

/-- Context for the C9 scenario. -/
def ctxC9 : PricingContext :=
  { product_id := "SKU-9", current_price := 10, cost := 2, inventory_level := 7,
    competitor_prices := [], sales_velocity := 1, marketplace := "amazon",
    category := "music", brand := "acme" }

/-- An applicable rule carrying a negative metadata weight. -/
def rW9 : PricingRule :=
  { name := "weighted", priority := 1, action_type := "set_price",
    action_value := some (fun _ => .ok 5), weight := some (-1) }

/-- Rule set containing the negatively weighted rule. -/
def rsW9 : RuleSet := { name := "set9", priority := 1, rules := [rW9] }

/-- C9 counterexample: a rule whose metadata weight is `-1` drives the
confidence of the returned `PricingResult` to `-1`, outside `[0, 1]`:
`_apply_rules` multiplies the running confidence by arbitrary rule weights and
only caps the product *above* (`min(confidence, 1.0)`), never below. -/
theorem C9_counterexample :
    (evaluatePricing ctxC9 [rsW9] []).confidence = -1 ∧
    (evaluatePricing ctxC9 [rsW9] []).confidence < 0 := by
  norm_num [evaluatePricing, evaluatePricingGen, getApplicableRules, applyRules,
    applyRulesFrom, ruleStep, evaluateRuleCondition, calculateRuleAdjustment,
    applySafetyConstraints, List.insertionSort, List.orderedInsert,
    evaluateRuleSetConditions, ctxC9, rsW9, rW9]

/-- C9 (amended): the confidence of the result returned by `evaluate_pricing`
is always ≤ 1 (the source caps it with `min(confidence, 1.0)`), and it lies
in `[0, 1]` provided every configured rule's metadata weight is
non-negative; a negative weight makes the confidence negative, so the claim's
"arbitrary numeric weights" qualification is wrong. -/
theorem C9_theorem (ctx : PricingContext) (rule_sets : List RuleSet)
    (constraints : List SafetyConstraint) :
    (evaluatePricing ctx rule_sets constraints).confidence ≤ 1 ∧
    ((∀ s ∈ rule_sets, ∀ r ∈ s.rules, 0 ≤ r.weight.getD 1) →
      0 ≤ (evaluatePricing ctx rule_sets constraints).confidence) := by
  rw [evaluatePricing_eq, applySafetyConstraints_confidence]
  constructor
  · simp only [applyRules, applyRulesFrom]
    exact min_le_right _ _
  · intro hw
    simp only [applyRules, applyRulesFrom]
    refine le_min ?_ zero_le_one
    refine ruleFold_confidence_nonneg ctx _ _ (by norm_num) ?_
    intro r hr
    obtain ⟨s, hs, hrs⟩ := mem_getApplicableRules rule_sets ctx r hr
    exact hw s hs r hrs

/-- A rule with a legitimate weight `1/2`, for the C9 witness. -/
def rGood9 : PricingRule :=
  { name := "halfweight", priority := 1, action_type := "set_price",
    action_value := some (fun _ => .ok 5), weight := some (1/2) }

/-- Rule set containing the half-weight rule. -/
def rsGood9 : RuleSet := { name := "set9b", priority := 1, rules := [rGood9] }

/-- C9 witness: the amended theorem applied to a configuration whose only
rule weight is `1/2 ≥ 0`. -/
theorem C9_witness :
    0 ≤ (evaluatePricing ctxC9 [rsGood9] []).confidence ∧
    (evaluatePricing ctxC9 [rsGood9] []).confidence ≤ 1 := by
  have h := C9_theorem ctxC9 [rsGood9] []
  refine ⟨h.2 ?_, h.1⟩
  intro s hs r hr
  simp at hs
  rw [hs] at hr
  simp [rsGood9] at hr
  rw [hr]
  norm_num [rGood9]

/-! ### Claim C10: totality and the fallback result of `evaluate_pricing` -/

/-- Context for the C10 scenario. -/
def ctxC10 : PricingContext :=
  { product_id := "SKU-10", current_price := 10, cost := 4, inventory_level := 2,
    competitor_prices := [], sales_velocity := 1, marketplace := "amazon",
    category := "garden", brand := "acme" }

/-- C10 counterexample: when the audit-log write raises (here: the logging
step returns an error) but every other step succeeds, `evaluate_pricing` does
NOT return the fallback result the claim describes: `_log_execution` catches
its own exception, and the normal result — confidence `1.0`, not `0.0` — is
returned. -/
theorem C10_counterexample :
    (evaluatePricingGen ctxC10 (.ok (some ⟨"s1"⟩))
      (fun _ => .ok (getApplicableRules [] ctxC10))
      (fun rules => .ok (applyRules rules ctxC10))
      (fun pr => .ok (applySafetyConstraints pr ctxC10 []))
      (fun _ => .error "database down")).confidence = 1 ∧
    ((1:ℚ) ≠ 0) := by
  norm_num [evaluatePricingGen, getApplicableRules, applyRules, applyRulesFrom,
    applySafetyConstraints, ctxC10]

/-- C10 (amended): `evaluate_pricing` is total (it always returns a
`PricingResult`), and when the strategy lookup, the rule retrieval, the rule
application or the safety enforcement raises, the returned result is the
fallback `evalErrorResult` — `new_price == current_price`,
`confidence == 0.0`, `safety_checks_passed == false`, `rules_applied == []`
and a warning describing the error.  A failure of the *logging* step, however,
is contained inside `_log_execution` and leaves the returned result
unchanged (the claim wrongly lists logging among the steps that trigger the
fallback). -/
theorem C10_theorem (ctx : PricingContext)
    (strategyStep : Except String (Option PricingStrategy))
    (rulesStep : PricingStrategy → Except String (List PricingRule))
    (applyStep : List PricingRule → Except String PricingResult)
    (safetyStepE : PricingResult → Except String PricingResult)
    (logStep logStep2 : PricingResult → Except String Unit) :
    (∀ e, strategyStep = .error e →
      evaluatePricingGen ctx strategyStep rulesStep applyStep safetyStepE logStep =
        evalErrorResult ctx e) ∧
    (∀ strat e, strategyStep = .ok (some strat) → rulesStep strat = .error e →
      evaluatePricingGen ctx strategyStep rulesStep applyStep safetyStepE logStep =
        evalErrorResult ctx e) ∧
    (∀ strat rules e, strategyStep = .ok (some strat) → rulesStep strat = .ok rules →
      applyStep rules = .error e →
      evaluatePricingGen ctx strategyStep rulesStep applyStep safetyStepE logStep =
        evalErrorResult ctx e) ∧
    (∀ strat rules pr e, strategyStep = .ok (some strat) → rulesStep strat = .ok rules →
      applyStep rules = .ok pr → safetyStepE pr = .error e →
      evaluatePricingGen ctx strategyStep rulesStep applyStep safetyStepE logStep =
        evalErrorResult ctx e) ∧
    (evaluatePricingGen ctx strategyStep rulesStep applyStep safetyStepE logStep =
      evaluatePricingGen ctx strategyStep rulesStep applyStep safetyStepE logStep2) ∧
    (∀ e, (evalErrorResult ctx e).new_price = ctx.current_price ∧
      (evalErrorResult ctx e).confidence = 0 ∧
      (evalErrorResult ctx e).safety_checks_passed = false ∧
      (evalErrorResult ctx e).rules_applied = [] ∧
      (evalErrorResult ctx e).warnings = ["Evaluation error: " ++ e]) := by
  refine ⟨?_, ?_, ?_, ?_, ?_, ?_⟩
  · intro e he
    simp [evaluatePricingGen, he]
  · intro strat e hs hr
    simp [evaluatePricingGen, hs, hr]
  · intro strat rules e hs hr ha
    simp [evaluatePricingGen, hs, hr, ha]
  · intro strat rules pr e hs hr ha hsa
    simp [evaluatePricingGen, hs, hr, ha, hsa]
  · cases strategyStep with
    | error e => rfl
    | ok o =>
      cases o with
      | none => rfl
      | some strat =>
        cases hr : rulesStep strat with
        | error e => simp [evaluatePricingGen, hr]
        | ok rules =>
          cases ha : applyStep rules with
          | error e => simp [evaluatePricingGen, hr, ha]
          | ok pr =>
            cases hsa : safetyStepE pr with
            | error e => simp [evaluatePricingGen, hr, ha, hsa]
            | ok fr => simp [evaluatePricingGen, hr, ha, hsa]
  · intro e
    exact ⟨rfl, rfl, rfl, rfl, rfl⟩

/-- C10 witness: the amended theorem applied with a failing strategy lookup. -/
theorem C10_witness :
    evaluatePricingGen ctxC10 (.error "connection lost")
      (fun _ => .ok []) (fun rules => .ok (applyRules rules ctxC10))
      (fun pr => .ok pr) (fun _ => .ok ()) = evalErrorResult ctxC10 "connection lost" :=
  (C10_theorem ctxC10 (.error "connection lost")
    (fun _ => .ok []) (fun rules => .ok (applyRules rules ctxC10))
    (fun pr => .ok pr) (fun _ => .ok ()) (fun _ => .ok ())).1 "connection lost" rfl

/-! ### Claim C6: the constrained grid search of the ML optimizer -/

/-- C6: `optimize_price_with_constraints` computes the effective lower bound
`max(min_price, cost/(1-min_margin))`; when that bound exceeds `max_price`
the call fails with the infeasibility error and no price is returned;
otherwise the returned result's price is one of the 20 evenly spaced
candidates of `[effective lower bound, max_price]` maximizing the composite
score `0.6*profit + 0.3*revenue + 0.1*100*buy_box_prob`, and its confidence
is that candidate's (clamped) buy-box probability.  (Stated away from the
`min_margin = 1` pole, where the source raises `ZeroDivisionError` instead.) -/
theorem C6_theorem (dM bM : ℚ → ℚ) (cost min_price max_price min_margin : ℚ)
    (_hmm : min_margin ≠ 1) :
    (max min_price (cost / (1 - min_margin)) > max_price →
      optimizePriceWithConstraints dM bM cost min_price max_price min_margin =
        .error "Cannot satisfy margin constraint within price range") ∧
    (¬ max min_price (cost / (1 - min_margin)) > max_price →
      ∃ r, optimizePriceWithConstraints dM bM cost min_price max_price min_margin = .ok r ∧
        r.predicted_price ∈ priceCandidates (max min_price (cost / (1 - min_margin))) max_price ∧
        r.confidence = predictBuyBoxProbability bM r.predicted_price ∧
        ∀ p ∈ priceCandidates (max min_price (cost / (1 - min_margin))) max_price,
          candidateScore dM bM cost p ≤ candidateScore dM bM cost r.predicted_price) := by
  constructor
  · intro h
    simp only [optimizePriceWithConstraints, if_pos h]
  · intro h
    simp only [optimizePriceWithConstraints, if_neg h]
    obtain ⟨s, r, heq, hmem, hr, hs, hall⟩ := optimizeFold_from_none dM bM cost
      (priceCandidates (max min_price (cost / (1 - min_margin))) max_price)
      (priceCandidates_ne_nil _ _)
    rw [heq]
    refine ⟨r, rfl, hmem, ?_, ?_⟩
    · rw [hr]
      rfl
    · intro p hp
      have hle := hall p hp
      rw [hs] at hle
      exact hle

/-- C6 witness: the spec's Example 4 — `min_price=10, max_price=20, cost=15,
min_margin=0.5` gives effective floor `30 > 20`, so the optimizer fails. -/
theorem C6_witness :
    optimizePriceWithConstraints (fun _ => 1) (fun _ => (1:ℚ)/2) 15 10 20 (1/2) =
      .error "Cannot satisfy margin constraint within price range" := by
  have h30 : (15:ℚ) / (1 - 1/2) = 30 := by norm_num
  have hmax : max (10:ℚ) ((15:ℚ) / (1 - 1/2)) = 30 := by
    rw [h30]
    exact max_eq_right (by norm_num)
  have h : max (10:ℚ) ((15:ℚ) / (1 - 1/2)) > 20 := by
    rw [hmax]
    norm_num
  exact (C6_theorem (fun _ => 1) (fun _ => (1:ℚ)/2) 15 10 20 (1/2) (by norm_num)).1 h

/-! ### Claim C3: the ML path and the Safety Constraint Enforcer -/

/-- Evaluating the optimizer on a degenerate grid (`min_price = max_price`):
every one of the 20 candidates is `20`, so the search returns price `20`
with confidence `1/2` (the clamped buy-box probability). -/
lemma optimizeC3_eval :
    optimizePriceWithConstraints (fun _ => 1) (fun _ => (1:ℚ)/2) 5 20 20 0 =
      .ok ⟨20, 1/2, "price_optimization", "ensemble"⟩ := by
  have hle : ¬ (max (20:ℚ) ((5:ℚ) / (1 - 0)) > 20) := by norm_num
  simp only [optimizePriceWithConstraints, if_neg hle]
  have hmax : max (20:ℚ) ((5:ℚ) / (1 - 0)) = 20 := by norm_num
  rw [hmax]
  have hmem : ∀ p ∈ priceCandidates 20 20, p = 20 := by
    intro p hp
    simp only [priceCandidates] at hp
    obtain ⟨i, _, hpi⟩ := List.mem_map.mp hp
    rw [← hpi]
    ring
  obtain ⟨s, r, heq, hmemr, hr, hs, _⟩ := optimizeFold_from_none
    (fun _ => 1) (fun _ => (1:ℚ)/2) 5 (priceCandidates 20 20) (priceCandidates_ne_nil 20 20)
  rw [heq]
  have hp20 : r.predicted_price = 20 := hmem _ hmemr
  rw [hr, hp20]
  norm_num [mkCandidateResult, predictBuyBoxProbability]

/-- The context the ML-produced price would be enforced against. -/
def ctxC3 : PricingContext :=
  { product_id := "SKU-3", current_price := 50, cost := 5, inventory_level := 9,
    competitor_prices := [], sales_velocity := 1, marketplace := "amazon",
    category := "office", brand := "acme" }

/-- An active `min_price` constraint, threshold `100`, action `block`. -/
def conC3 : SafetyConstraint :=
  { name := "floor-100", constraint_type := "min_price", threshold := 100, action := "block" }

/-- The result the optimizer returns in the C3 scenario. -/
def mlC3 : MLPricingResult := ⟨20, 1/2, "price_optimization", "ensemble"⟩

/-- C3 counterexample: the optimizer returns price `20` to the caller while
an active `block` safety constraint (minimum price `100`) is violated by that
price; had the result passed through the Safety Constraint Enforcer as the
claim states, the enforced price would be `current_price = 50 ≠ 20`.  The
returned `MLPricingResult` is the raw grid-search winner — no safety
handling is applied on the ML path. -/
theorem C3_counterexample :
    optimizePriceWithConstraints (fun _ => 1) (fun _ => (1:ℚ)/2) 5 20 20 0 = .ok mlC3 ∧
    (checkSafetyConstraint conC3 mlC3.predicted_price ctxC3).passed = false ∧
    (applySafetyConstraints (mlToPricingResult mlC3) ctxC3 [conC3]).new_price =
      ctxC3.current_price ∧
    mlC3.predicted_price ≠ ctxC3.current_price := by
  refine ⟨optimizeC3_eval, ?_, ?_, ?_⟩
  · simp +decide [checkSafetyConstraint, conC3, mlC3, ctxC3]
  · simp +decide [applySafetyConstraints, safetyStep, checkSafetyConstraint,
      mlToPricingResult, conC3, mlC3, ctxC3]
  · simp +decide [mlC3, ctxC3]

/-- C3 (amended): the price returned by `optimize_price_with_constraints` is
NOT passed through the Safety Constraint Enforcer: the caller receives the
raw grid-search winner, and whenever an active `block` constraint is violated
by that price (and the price differs from `current_price`), the value the
enforcer would have produced differs from the value actually returned. -/
theorem C3_theorem (dM bM : ℚ → ℚ) (cost minp maxp mm : ℚ) (ctx : PricingContext)
    (c : SafetyConstraint) (r : MLPricingResult)
    (_hopt : optimizePriceWithConstraints dM bM cost minp maxp mm = .ok r)
    (hact : c.is_active = true) (hblock : c.action = "block")
    (hviol : (checkSafetyConstraint c r.predicted_price ctx).passed = false)
    (hne : r.predicted_price ≠ ctx.current_price) :
    (applySafetyConstraints (mlToPricingResult r) ctx [c]).new_price = ctx.current_price ∧
    (applySafetyConstraints (mlToPricingResult r) ctx [c]).new_price ≠ r.predicted_price := by
  have hfilter : [c].filter (·.is_active) = [c] := by simp [hact]
  have hstep : safetyStep ctx ⟨r.predicted_price, [], true⟩ c =
      ⟨ctx.current_price, ["Safety constraint " ++ c.name ++ " blocked price change"], false⟩ := by
    simp [safetyStep, hviol, hblock]
  have hmain : (applySafetyConstraints (mlToPricingResult r) ctx [c]).new_price =
      ctx.current_price := by
    simp only [applySafetyConstraints, mlToPricingResult, hfilter, List.foldl_cons,
      List.foldl_nil, hstep]
  exact ⟨hmain, by rw [hmain]; exact Ne.symm hne⟩

/-- C3 witness: the amended theorem applied to the concrete scenario of the
counterexample. -/
theorem C3_witness :
    (applySafetyConstraints (mlToPricingResult mlC3) ctxC3 [conC3]).new_price =
      ctxC3.current_price ∧
    (applySafetyConstraints (mlToPricingResult mlC3) ctxC3 [conC3]).new_price ≠
      mlC3.predicted_price := by
  refine C3_theorem (fun _ => 1) (fun _ => (1:ℚ)/2) 5 20 20 0 ctxC3 conC3 mlC3
    optimizeC3_eval rfl rfl ?_ ?_
  · simp +decide [checkSafetyConstraint, conC3, mlC3, ctxC3]
  · simp +decide [mlC3, ctxC3]

end Analiqo
